import Mathlib

/-!
Verification of the currency-converter core (models/rate.rs, services/converter.rs,
error.rs, handlers/health.rs) against its specification.

Embedding choices:
* the rust_decimal type `Decimal` is modelled by `ℚ` (exact decimal arithmetic, the
  arithmetic the specification itself appeals to).  The 96-bit mantissa bound is
  abstracted away: `checked_mul` never overflows in the model, and `checked_div`
  fails exactly on a zero divisor.
* `HashMap<String, Decimal>` is modelled as a lookup function
  `String → Option ℚ` with last-insert-wins `insert`.  The one place the Rust
  code iterates over a map (the rebase loop) inserts every key at most once, so
  its result is independent of iteration order and is embedded pointwise.
* Rust `String::to_uppercase` is modelled by `upper` (character-wise ASCII
  upcasing); the two agree on the ASCII currency codes this program handles.
* `Result<T, E>` is `Except E T`; the `?` operator is the explicit error match.
-/

/-- Model of str::to_uppercase — character-wise upcasing; agrees with Rust on
ASCII currency codes. -/
def upper (s : String) : String := String.mk (s.data.map Char.toUpper)

/-- Model of HashMap<String, Decimal>: a lookup function.  Insert overwrites. -/
def RateMap : Type := String → Option ℚ

/-- HashMap::insert — later inserts shadow earlier ones. -/
def RateMap.insert (m : RateMap) (k : String) (v : ℚ) : RateMap :=
  fun c => if c = k then some v else m c

/-- The empty map. -/
def RateMap.empty : RateMap := fun _ => none

/-- DailyRate from src/models/rate.rs: a single-day snapshot of exchange rates. -/
structure DailyRate where
  date : String
  base : String
  rates : RateMap

/-- ApiError from src/error.rs.  The CalculationError variant is constructed by
src/services/converter.rs (lines 51, 57, 90, 102) although the enum declaration
in the src/error.rs snapshot omits it; it is included here as those call sites
require. -/
inductive ApiError where
  | CurrencyNotFound (code : String)
  | NoRatesAvailable
  | ValidationError (msg : String)
  | EcbFetchError (msg : String)
  | RedisError (msg : String)
  | XmlParseError (msg : String)
  | InternalError (msg : String)
  | CalculationError (msg : String)
deriving DecidableEq

/-- Decimal::checked_div — in the exact model it fails exactly on a zero
divisor (representation overflow cannot occur in ℚ). -/
def checked_div (a b : ℚ) : Option ℚ :=
  if b = 0 then none else some (a / b)

/-- Decimal::checked_mul — exact multiplication never overflows in ℚ. -/
def checked_mul (a b : ℚ) : Option ℚ :=
  some (a * b)

/-- The rate-resolution block of convert_currency (src/services/converter.rs
lines 29-36 and its mirror 39-46): 1 for the base currency, otherwise a map
lookup, missing key reported as CurrencyNotFound.  The argument is already
uppercased by the caller, as in the source. -/
def getRate (d : DailyRate) (c : String) : Except ApiError ℚ :=
  if c = d.base then Except.ok 1
  else
    match d.rates c with
    | some r => Except.ok r
    | none => Except.error (ApiError.CurrencyNotFound c)

/-- convert_currency from src/services/converter.rs lines 13-60. -/
def convert_currency (daily_rate : DailyRate) (src dst : String) (amount : ℚ) :
    Except ApiError (ℚ × ℚ) :=
  if upper src = upper dst then Except.ok (amount, 1)
  else
    match getRate daily_rate (upper src) with
    | Except.error e => Except.error e
    | Except.ok from_rate =>
      match getRate daily_rate (upper dst) with
      | Except.error e => Except.error e
      | Except.ok to_rate =>
        match checked_div to_rate from_rate with
        | none =>
          Except.error
            (ApiError.CalculationError "Division by zero or overflow in conversion")
        | some conversion_rate =>
          match checked_mul amount conversion_rate with
          | none =>
            Except.error (ApiError.CalculationError "Overflow in amount calculation")
          | some result => Except.ok (result, conversion_rate)

/-- rebase_rates from src/services/converter.rs lines 70-112.  The Rust loop
over daily_rate.rates inserts each key other than the new base exactly once
(value rate / base_rate) over the initial singleton {old base ↦ 1/base_rate},
so the final map is independent of HashMap iteration order and is given here
pointwise.  The per-iteration checked_div in the loop cannot fail in the exact
model because base_rate has been established nonzero by the preceding
checked_div. -/
def rebase_rates (daily_rate : DailyRate) (new_base : String) :
    Except ApiError DailyRate :=
  if upper new_base = daily_rate.base then Except.ok daily_rate
  else
    match daily_rate.rates (upper new_base) with
    | none => Except.error (ApiError.CurrencyNotFound (upper new_base))
    | some base_rate =>
      match checked_div 1 base_rate with
      | none => Except.error (ApiError.CalculationError "Division by zero in rebase")
      | some old_base_rate =>
        Except.ok
          { date := daily_rate.date
            base := upper new_base
            rates := fun c =>
              if c = upper new_base then none
              else
                match daily_rate.rates c with
                | some r => some (r / base_rate)
                | none =>
                  if c = daily_rate.base then some old_base_rate else none }

/-- EcbRate from src/models/rate.rs: one currency/rate attribute pair as read
from the upstream XML. -/
structure EcbRate where
  currency : String
  rate : String

/-- Core digit scanner of rust_decimal FromStr (the library parser invoked by
rate.rate.parse::<Decimal>() in from_ecb_data): consumes digits, underscore
separators and at most one decimal point, accumulating the numerator and the
count of fractional digits; fails when a foreign character appears or no digit
was seen.  The 28-digit precision and 96-bit overflow limits of the concrete
type are abstracted away in the exact model. -/
def parseCore : List Char → Bool → ℕ → ℕ → Bool → Option (ℕ × ℕ)
  | [], _, acc, frac, seenDigit => if seenDigit then some (acc, frac) else none
  | c :: rest, seenDot, acc, frac, seenDigit =>
    if c.isDigit then
      parseCore rest seenDot (10 * acc + (c.toNat - 48))
        (if seenDot then frac + 1 else frac) true
    else if c = '_' then parseCore rest seenDot acc frac seenDigit
    else if c = '.' then
      if seenDot then none else parseCore rest true acc frac seenDigit
    else none

/-- Model of str::parse::<Decimal> (rust_decimal FromStr): an optional leading
sign followed by a decimal digit string.  Signed input is accepted — a leading
minus yields a negative value. -/
def parseDecimal (s : String) : Option ℚ :=
  match s.data with
  | [] => none
  | c :: rest =>
    match
      (if c = '-' then parseCore rest false 0 0 false
       else if c = '+' then parseCore rest false 0 0 false
       else parseCore (c :: rest) false 0 0 false) with
    | none => none
    | some (acc, frac) =>
      if c = '-' then some (-((acc : ℚ) / (10 ^ frac : ℕ)))
      else some ((acc : ℚ) / (10 ^ frac : ℕ))

/-- The rate-accumulation loop of DailyRate::from_ecb_data (src/models/rate.rs
lines 50-56): parse each entry, uppercase its code and insert it; the first
parse failure aborts the whole construction with a message naming the offending
currency (the detail string of the library parser, appended after a colon in
the source, is elided). -/
def buildRateMap : List EcbRate → RateMap → Except String RateMap
  | [], m => Except.ok m
  | r :: rest, m =>
    match parseDecimal r.rate with
    | none => Except.error ("Failed to parse rate for " ++ r.currency)
    | some v => buildRateMap rest (m.insert (upper r.currency) v)

/-- DailyRate::from_ecb_data from src/models/rate.rs lines 46-66.  After the
loop it unconditionally inserts EUR with rate 1 and fixes base = EUR. -/
def from_ecb_data (time : String) (rates : List EcbRate) :
    Except String DailyRate :=
  match buildRateMap rates RateMap.empty with
  | Except.error e => Except.error e
  | Except.ok m =>
    Except.ok { date := time, base := "EUR", rates := m.insert "EUR" 1 }

/-- Specification-side description of the map built by from_ecb_data before the
EUR insertion: the parsed value of the last entry whose uppercased code matches,
if any (last insert wins). -/
def lastParsed : List EcbRate → String → Option ℚ
  | [], _ => none
  | r :: rest, c =>
    match lastParsed rest c with
    | some v => some v
    | none => if upper r.currency = c then parseDecimal r.rate else none

/-- ApiError::into_response from src/error.rs lines 33-75, reduced to its pure
content: the HTTP status code and the error message of the body.  The first three
variants surface their own Display string (the thiserror attribute); the
remaining kinds log the detail and answer a generic constant message.  The
CalculationError arm is Modelled from the spec: the declaration of the variant and its
response arm are absent from the src/error.rs snapshot (only its construction
sites in services/converter.rs exist); per the spec all calculation failures map
to 500 with a generic message. -/
def intoResponse : ApiError → ℕ × String
  | ApiError.CurrencyNotFound c =>
    (404, "Currency code \x27" ++ c ++ "\x27 not found in exchange rates")
  | ApiError.NoRatesAvailable =>
    (503, "No exchange rates available. Please try again later.")
  | ApiError.ValidationError m => (400, "Invalid parameter: " ++ m)
  | ApiError.EcbFetchError _ => (500, "Failed to fetch exchange rates")
  | ApiError.RedisError _ => (500, "Database connection error")
  | ApiError.XmlParseError _ => (500, "Failed to parse exchange rate data")
  | ApiError.InternalError _ => (500, "Internal server error")
  | ApiError.CalculationError _ => (500, "Internal server error")

/-- HealthResponse from src/models/api.rs. -/
structure HealthResponse where
  status : String
  redis : String
  last_update : Option String

/-- health_handler from src/handlers/health.rs lines 6-23, with the two store
interactions (health_check and get_last_update_date) supplied as explicit
outcomes: the redis field reflects the ping outcome, and the date lookup is
flattened with .ok().flatten() so its failure becomes an absent date. -/
def health_handler (ping : Except ApiError Unit)
    (lastUpdate : Except ApiError (Option String)) :
    Except ApiError HealthResponse :=
  Except.ok
    { status := "ok"
      redis := match ping with
        | Except.ok _ => "healthy"
        | Except.error _ => "unhealthy"
      last_update := match lastUpdate with
        | Except.ok d => d
        | Except.error _ => none }

/-- The entry the rebased table rebase_rates(d, nb) holds for a currency dst:
the implicit 1 when dst is the new base, the stored entry otherwise, and none
when the rebase itself fails.  Used to compare the O(1) direct conversion with
rebase-then-lookup. -/
def rebasedEntry (d : DailyRate) (nb dst : String) : Option ℚ :=
  match rebase_rates d nb with
  | Except.error _ => none
  | Except.ok d2 => if dst = d2.base then some 1 else d2.rates dst

/-- The rate table of create_test_rates in the converter test module, with
rates as exact rationals (1.05 = 21/20, 0.85 = 17/20, 158.2 = 791/5). -/
def testRates : DailyRate :=
  { date := "2024-12-04"
    base := "EUR"
    rates := fun c =>
      if c = "USD" then some 1.05
      else if c = "GBP" then some 0.85
      else if c = "JPY" then some 158.2
      else if c = "EUR" then some 1
      else none }


/-- The rate table of create_test_rates in the converter test module: EUR base
with the EUR self-rate stored explicitly, exactly as from_ecb_data builds it. -/
def zeroRates : DailyRate :=
  { date := "2024-12-04"
    base := "EUR"
    rates := fun c => if c = "USD" then some 0 else none }

/-- A rate set whose base appears in its own map with a rate other than 1;
reachable as a DailyRate value (the type does not rule it out) though not via
from_ecb_data, which overwrites the base entry with 1. -/
def skewRates : DailyRate :=
  { date := "2024-12-04"
    base := "EUR"
    rates := fun c =>
      if c = "EUR" then some 2 else if c = "USD" then some 1 else none }

/-- Resolution of a (pre-uppercased) code is an ok rate or CurrencyNotFound on
that very code; no other outcome exists. -/
theorem getRate_cases (d : DailyRate) (c : String) :
    (∃ r, getRate d c = Except.ok r) ∨
      getRate d c = Except.error (ApiError.CurrencyNotFound c) := by
  unfold getRate
  split
  · exact Or.inl ⟨1, rfl⟩
  · cases h : d.rates c with
    | none => exact Or.inr rfl
    | some r => exact Or.inl ⟨r, rfl⟩

/-- Elimination form of a successful conversion with distinct normalized
codes: both codes resolve, the source rate is nonzero, and the returned pair
is determined by the two resolved rates. -/
theorem convert_currency_ok_elim (d : DailyRate) (src dst : String)
    (amount res rate : ℚ) (hne : upper src ≠ upper dst)
    (hc : convert_currency d src dst amount = Except.ok (res, rate)) :
    ∃ rf rt, getRate d (upper src) = Except.ok rf ∧
      getRate d (upper dst) = Except.ok rt ∧ rf ≠ 0 ∧
      rate = rt / rf ∧ res = amount * (rt / rf) := by
  unfold convert_currency at hc
  rw [if_neg hne] at hc
  cases hfs : getRate d (upper src) with
  | error e => rw [hfs] at hc; cases hc
  | ok rf =>
    cases hdt : getRate d (upper dst) with
    | error e => rw [hfs, hdt] at hc; cases hc
    | ok rt =>
      rw [hfs, hdt] at hc
      by_cases hrf : rf = 0
      · rw [hrf] at hc
        simp [checked_div] at hc
      · refine ⟨rf, rt, rfl, rfl, hrf, ?_, ?_⟩
        · simp only [checked_div, checked_mul, if_neg hrf] at hc
          exact (congrArg Prod.snd (Except.ok.inj hc)).symm
        · simp only [checked_div, checked_mul, if_neg hrf] at hc
          exact (congrArg Prod.fst (Except.ok.inj hc)).symm

/-- Closed form of a successful rebase to a genuinely different stored code
with nonzero rate. -/
theorem rebase_rates_eq_ok (d : DailyRate) (nb : String) (r : ℚ)
    (hne : upper nb ≠ d.base) (hr : d.rates (upper nb) = some r)
    (hr0 : r ≠ 0) :
    rebase_rates d nb = Except.ok
      { date := d.date, base := upper nb,
        rates := fun c =>
          if c = upper nb then none
          else
            match d.rates c with
            | some w => some (w / r)
            | none => if c = d.base then some (1 / r) else none } := by
  unfold rebase_rates
  rw [if_neg hne, hr]
  simp [checked_div, hr0]

/-- C5: convert_currency with the same source and target code returns the
amount unchanged and rate 1, for every rate set, every code (known to the rate
set or not) and every amount. -/
theorem convert_currency_same_code (d : DailyRate) (x : String) (amount : ℚ) :
    convert_currency d x x amount = Except.ok (amount, 1) := by
  simp [convert_currency]

/-- C2 (amended): with distinct normalized codes, when both codes resolve (1
for the base, stored rate otherwise) and the source rate is nonzero,
convert_currency returns exactly amount * (rateTo / rateFrom) together with
that rate; a code that neither equals the base nor occurs in the map yields
CurrencyNotFound carrying exactly that normalized code (the source code is
checked first).  The amendment adds the nonzero source rate: a stored zero rate
makes the division checked_div fail with CalculationError instead of Ok. -/
theorem convert_currency_spec (d : DailyRate) (src dst : String)
    (amount rf rt : ℚ) (hne : upper src ≠ upper dst) :
    (getRate d (upper src) = Except.ok rf → getRate d (upper dst) = Except.ok rt →
      rf ≠ 0 →
      convert_currency d src dst amount =
        Except.ok (amount * (rt / rf), rt / rf)) ∧
    (upper src ≠ d.base → d.rates (upper src) = none →
      convert_currency d src dst amount =
        Except.error (ApiError.CurrencyNotFound (upper src))) ∧
    (getRate d (upper src) = Except.ok rf → upper dst ≠ d.base →
      d.rates (upper dst) = none →
      convert_currency d src dst amount =
        Except.error (ApiError.CurrencyNotFound (upper dst))) := by
  refine ⟨?_, ?_, ?_⟩
  · intro h1 h2 hrf
    unfold convert_currency
    rw [if_neg hne, h1, h2]
    simp [checked_div, checked_mul, hrf]
  · intro hnb hnone
    have hsrc : getRate d (upper src) =
        Except.error (ApiError.CurrencyNotFound (upper src)) := by
      simp [getRate, hnb, hnone]
    unfold convert_currency
    rw [if_neg hne, hsrc]
  · intro h1 hnb hnone
    have hdst : getRate d (upper dst) =
        Except.error (ApiError.CurrencyNotFound (upper dst)) := by
      simp [getRate, hnb, hnone]
    unfold convert_currency
    rw [if_neg hne, h1, hdst]

/-- Witness for C2: EUR to USD on the test table gives 100 * (1.05 / 1). -/
theorem convert_currency_spec_witness :
    convert_currency testRates "eur" "usd" 100 =
      Except.ok (100 * ((21/20) / 1), (21/20) / 1) :=
  (convert_currency_spec testRates "eur" "usd" 100 1 (21/20)
    (by decide)).1
    (by have h : upper "eur" = "EUR" := by decide
        rw [h]; simp [getRate, testRates])
    (by have h : upper "usd" = "USD" := by decide
        rw [h]; simp [getRate, testRates]; norm_num)
    one_ne_zero

/-- Counterexample to C2 as stated: USD occurs in the map (with stored rate 0)
and EUR is the base, yet the conversion is not Ok — the zero divisor is
reported as CalculationError. -/
theorem convert_currency_zero_counterexample :
    convert_currency zeroRates "USD" "EUR" 5 =
      Except.error
        (ApiError.CalculationError "Division by zero or overflow in conversion") ∧
    (convert_currency zeroRates "USD" "EUR" 5).toOption = none ∧
    zeroRates.rates "USD" = some 0 ∧ zeroRates.base = "EUR" := by
  have hu : upper "USD" = "USD" := by decide
  have he : upper "EUR" = "EUR" := by decide
  refine ⟨?_, ?_, by simp [zeroRates], rfl⟩ <;>
    simp [convert_currency, getRate, zeroRates, checked_div, hu, he,
      Except.toOption]

/-- C3 (amended): rebasing to a genuinely different code X: a missing key gives
CurrencyNotFound(X); a stored zero rate gives CalculationError (the amendment —
the claim promised an Ok rate set for every stored key); otherwise the result
keeps the date, has base X, omits X from its map, maps the old base to 1/r when
the old base was not itself a key and to v/r when it was stored with value v
(the second amendment — the loop overwrites the freshly inserted old-base entry),
and maps every other currency with stored rate w to w/r. -/
theorem rebase_rates_spec (d : DailyRate) (nb : String)
    (hne : upper nb ≠ d.base) :
    (d.rates (upper nb) = none →
      rebase_rates d nb =
        Except.error (ApiError.CurrencyNotFound (upper nb))) ∧
    (d.rates (upper nb) = some 0 →
      rebase_rates d nb =
        Except.error (ApiError.CalculationError "Division by zero in rebase")) ∧
    (∀ r : ℚ, d.rates (upper nb) = some r → r ≠ 0 →
      ∃ d2, rebase_rates d nb = Except.ok d2 ∧
        d2.base = upper nb ∧
        d2.date = d.date ∧
        d2.rates (upper nb) = none ∧
        (d.rates d.base = none → d2.rates d.base = some (1 / r)) ∧
        (∀ v, d.rates d.base = some v → d2.rates d.base = some (v / r)) ∧
        (∀ c, c ≠ upper nb →
          d2.rates c = Option.map (fun w => w / r) (d.rates c) ∨
            (d.rates c = none ∧ c = d.base ∧ d2.rates c = some (1 / r)))) := by
  refine ⟨?_, ?_, ?_⟩
  · intro hnone
    unfold rebase_rates
    rw [if_neg hne, hnone]
  · intro hzero
    unfold rebase_rates
    rw [if_neg hne, hzero]
    simp [checked_div]
  · intro r hr hr0
    refine ⟨{ date := d.date, base := upper nb,
              rates := fun c =>
                if c = upper nb then none
                else
                  match d.rates c with
                  | some w => some (w / r)
                  | none => if c = d.base then some (1 / r) else none },
            ?_, rfl, rfl, by simp, ?_, ?_, ?_⟩
    · unfold rebase_rates
      rw [if_neg hne, hr]
      simp [checked_div, hr0]
    · intro hbn
      have hb : d.base ≠ upper nb := fun h => hne h.symm
      simp [hb, hbn]
    · intro v hbv
      have hb : d.base ≠ upper nb := fun h => hne h.symm
      simp [hb, hbv]
    · intro c hcn
      cases hc : d.rates c with
      | none =>
        by_cases hcb : c = d.base
        · subst hcb
          exact Or.inr ⟨rfl, rfl, by simp [hcn, hc]⟩
        · exact Or.inl (by simp [hcn, hc, hcb])
      | some w => exact Or.inl (by simp [hcn, hc])

/-- Witness for C3: rebasing the test table from EUR to USD. -/
theorem rebase_rates_spec_witness :
    (rebase_rates testRates "usd").toOption.map
        (fun d2 => (d2.base, d2.date, d2.rates "USD", d2.rates "EUR",
          d2.rates "JPY")) =
      some ("USD", "2024-12-04", none, some (1 / (21/20)),
        some ((791/5) / (21/20))) := by
  have hu : upper "usd" = "USD" := by decide
  obtain ⟨d2, hok, hbase, hdate, hnb, _, hbv, hoth⟩ :=
    (rebase_rates_spec testRates "usd" (by decide)).2.2 (21/20)
      (by rw [hu]; simp [testRates]; norm_num) (by norm_num)
  rw [hok]
  have h1 : d2.rates "EUR" = some (1 / (21/20)) := by
    have := hbv 1 (by simp [testRates])
    simpa using this
  have h2 : d2.rates "JPY" = some ((791/5) / (21/20)) := by
    rcases hoth "JPY" (by rw [hu]; decide) with h | ⟨h, _, _⟩
    · rw [h]
      simp [testRates]
      norm_num
    · simp [testRates] at h
  rw [hu] at hbase hnb
  simp [Except.toOption, hbase, hdate, hnb, h1, h2, testRates]

/-- Counterexample to C3 as stated: USD is a key of the map (stored rate 0),
yet the rebase returns CalculationError, not the promised rate set. -/
theorem rebase_rates_zero_counterexample :
    rebase_rates zeroRates "USD" =
      Except.error (ApiError.CalculationError "Division by zero in rebase") ∧
    (rebase_rates zeroRates "USD").toOption = none ∧
    zeroRates.rates "USD" = some 0 := by
  have hu : upper "USD" = "USD" := by decide
  refine ⟨?_, ?_, by simp [zeroRates]⟩ <;>
    simp [rebase_rates, zeroRates, checked_div, hu, Except.toOption]

/-- C1 (amended): a rate set built by from_ecb_data has base EUR and stores the
base explicitly with rate 1 (the feed omits it; the constructor adds it), so
the base IS a key of its map; a rate set produced by rebase_rates to a base
different from the current one never has its own base as a key. -/
theorem base_key_invariant (time : String) (ecb : List EcbRate)
    (d0 d1 d2 : DailyRate) (nb : String) :
    (from_ecb_data time ecb = Except.ok d0 →
      d0.base = "EUR" ∧ d0.rates d0.base = some 1) ∧
    (upper nb ≠ d1.base → rebase_rates d1 nb = Except.ok d2 →
      d2.rates d2.base = none) := by
  constructor
  · intro h
    cases hb : buildRateMap ecb RateMap.empty with
    | error e => simp [from_ecb_data, hb] at h
    | ok m =>
      simp only [from_ecb_data, hb] at h
      cases h
      simp [RateMap.insert]
  · intro hne h
    unfold rebase_rates at h
    rw [if_neg hne] at h
    split at h
    · simp at h
    · split at h
      · simp at h
      · injection h with h2
        subst h2
        simp

/-- Witness for C1: a one-entry feed and a rebase of the test table. -/
theorem base_key_invariant_witness :
    ((from_ecb_data "2024-12-04" [⟨"USD", "1.05"⟩]).toOption.map
      (fun d0 => (d0.base, d0.rates d0.base)) = some ("EUR", some 1)) ∧
    ((rebase_rates testRates "usd").toOption.map
      (fun d2 => d2.rates d2.base) = some none) := by
  constructor
  · cases h : from_ecb_data "2024-12-04" [⟨"USD", "1.05"⟩] with
    | error e =>
      exact absurd h
        (by simp [from_ecb_data, buildRateMap, parseDecimal, parseCore])
    | ok d0 =>
      obtain ⟨hb, hr⟩ :=
        (base_key_invariant "2024-12-04" [⟨"USD", "1.05"⟩] d0 testRates
          testRates "usd").1 h
      rw [hb] at hr
      simp [Except.toOption, hb, hr]
  · cases h : rebase_rates testRates "usd" with
    | error e =>
      have hu : upper "usd" = "USD" := by decide
      rw [rebase_rates_eq_ok testRates "usd" (21/20)
            (by rw [hu]; simp [testRates])
            (by rw [hu]; simp [testRates]; norm_num)
            (by norm_num)] at h
      exact Except.noConfusion h
    | ok d2 =>
      have hr :=
        (base_key_invariant "2024-12-04" [] testRates testRates d2 "usd").2
          (by decide) h
      simp [Except.toOption, hr]

/-- Counterexample to C1 as stated: a rate set observable at the public
interface — built by from_ecb_data from feed data — has its base EUR as an
explicit key of its rates map (with value 1). -/
theorem base_never_key_counterexample :
    (from_ecb_data "2024-12-04" [⟨"USD", "1.05"⟩]).toOption.map
        (fun d0 => (d0.base, d0.rates "EUR")) = some ("EUR", some 1) ∧
    some (1 : ℚ) ≠ (none : Option ℚ) := by
  constructor
  · simp [from_ecb_data, buildRateMap, parseDecimal, parseCore, RateMap.insert,
      RateMap.empty, Except.toOption]
  · simp

/-- C6 (amended): whenever the base entry of the rate set, if stored at all,
is stored with value 1 (true of every feed-constructed set, whose constructor
forces EUR to 1) and the direct conversion succeeds on distinct normalized
codes, the rebase-then-lookup computation succeeds as well and its entry for
the target equals the conversion rate.  The amendment adds the base-entry
hypothesis: a set whose base is keyed with a value other than 1 makes the
rebase loop overwrite the old-base entry and the two computations disagree. -/
theorem convert_matches_rebase (d : DailyRate) (src dst : String)
    (amount res rate : ℚ)
    (hbase : d.rates d.base = none ∨ d.rates d.base = some 1)
    (hne : upper src ≠ upper dst)
    (hc : convert_currency d src dst amount = Except.ok (res, rate)) :
    rebasedEntry d src (upper dst) = some rate := by
  obtain ⟨rf, rt, hfs, hdt, hrf, hrate, -⟩ :=
    convert_currency_ok_elim d src dst amount res rate hne hc
  unfold rebasedEntry
  by_cases hfb : upper src = d.base
  · have hreb : rebase_rates d src = Except.ok d := by
      unfold rebase_rates
      rw [if_pos hfb]
    rw [hreb]
    have htb : upper dst ≠ d.base := fun h => hne (hfb.trans h.symm)
    show (if upper dst = d.base then some 1 else d.rates (upper dst)) =
      some rate
    rw [if_neg htb]
    rw [hfb] at hfs
    have hrf1 : rf = 1 := by
      have : Except.ok (ε := ApiError) 1 = Except.ok rf := by
        rw [← hfs]; simp [getRate]
      exact (Except.ok.inj this).symm
    unfold getRate at hdt
    rw [if_neg htb] at hdt
    cases hlt : d.rates (upper dst) with
    | none => rw [hlt] at hdt; cases hdt
    | some w =>
      rw [hlt] at hdt
      rw [hrate, hrf1, div_one, Except.ok.inj hdt]
  · have hfs2 : d.rates (upper src) = some rf := by
      unfold getRate at hfs
      rw [if_neg hfb] at hfs
      cases hls : d.rates (upper src) with
      | none => rw [hls] at hfs; cases hfs
      | some w => rw [hls] at hfs; rw [Except.ok.inj hfs]
    rw [rebase_rates_eq_ok d src rf hfb hfs2 hrf]
    show (if upper dst = upper src then some 1
      else
        if upper dst = upper src then none
        else
          match d.rates (upper dst) with
          | some w => some (w / rf)
          | none => if upper dst = d.base then some (1 / rf) else none) =
      some rate
    rw [if_neg (fun h => hne h.symm), if_neg (fun h => hne h.symm)]
    unfold getRate at hdt
    by_cases htb : upper dst = d.base
    · rw [if_pos htb] at hdt
      have hrt1 : rt = 1 := (Except.ok.inj hdt).symm
      rw [htb]
      rcases hbase with hb | hb
      · rw [hb, hrate, hrt1]
        simp
      · rw [hb, hrate, hrt1]
    · rw [if_neg htb] at hdt
      cases hlt : d.rates (upper dst) with
      | none => rw [hlt] at hdt; cases hdt
      | some w =>
        rw [hlt] at hdt
        have hwt : w = rt := Except.ok.inj hdt
        show some (w / rf) = some rate
        rw [hrate, hwt]

/-- Witness for C6: USD to JPY on the test table; the conversion rate equals
the JPY entry of the USD-rebased table. -/
theorem convert_matches_rebase_witness :
    rebasedEntry testRates "usd" (upper "jpy") = some ((791/5) / (21/20)) :=
  convert_matches_rebase testRates "usd" "jpy" 1 (1 * ((791/5) / (21/20)))
    ((791/5) / (21/20))
    (Or.inr (by simp [testRates]))
    (by decide)
    ((convert_currency_spec testRates "usd" "jpy" 1 (21/20) (791/5)
      (by decide)).1
      (by have h : upper "usd" = "USD" := by decide
          rw [h]; simp [getRate, testRates]; norm_num)
      (by have h : upper "jpy" = "JPY" := by decide
          rw [h]; simp [getRate, testRates]; norm_num)
      (by norm_num))

/-- Counterexample to C6 as stated: a rate set keying its own base EUR with 2;
converting USD to EUR yields rate 1, while the USD-rebased table stores 2 for
EUR — the two computations disagree on this set. -/
theorem convert_matches_rebase_counterexample :
    convert_currency skewRates "USD" "EUR" 1 = Except.ok (1, 1) ∧
    rebasedEntry skewRates "USD" "EUR" = some 2 ∧
    some (2 : ℚ) ≠ some (1 : ℚ) := by
  have hu : upper "USD" = "USD" := by decide
  have he : upper "EUR" = "EUR" := by decide
  refine ⟨?_, ?_, by norm_num⟩
  · simp [convert_currency, getRate, skewRates, checked_div, checked_mul, hu, he]
  · simp [rebasedEntry, rebase_rates, skewRates, checked_div, hu]

/-- C7: whenever converting amount from A to B succeeds and converting the
result back from B to A succeeds, the final value equals the original amount
exactly — the exact-decimal model has zero round-trip drift, so the difference
is within the epsilon of the precision test of the repository (0.0001). -/
theorem convert_roundtrip (d : DailyRate) (a b : String)
    (amount m1 r1 m2 r2 : ℚ)
    (h1 : convert_currency d a b amount = Except.ok (m1, r1))
    (h2 : convert_currency d b a m1 = Except.ok (m2, r2)) :
    m2 = amount ∧ |m2 - amount| < 1/10000 := by
  have hm : m2 = amount := by
    by_cases hab : upper a = upper b
    · unfold convert_currency at h1 h2
      rw [if_pos hab] at h1
      rw [if_pos hab.symm] at h2
      have e1 : m1 = amount := (congrArg Prod.fst (Except.ok.inj h1)).symm
      have e2 : m2 = m1 := (congrArg Prod.fst (Except.ok.inj h2)).symm
      rw [e2, e1]
    · obtain ⟨rf, rt, hfs, hdt, hrf, -, hm1⟩ :=
        convert_currency_ok_elim d a b amount m1 r1 hab h1
      obtain ⟨rf2, rt2, hfs2, hdt2, hrf2, -, hm2⟩ :=
        convert_currency_ok_elim d b a m1 m2 r2 (fun h => hab h.symm) h2
      have e1 : rf2 = rt := Except.ok.inj (hfs2.symm.trans hdt)
      have e2 : rt2 = rf := Except.ok.inj (hdt2.symm.trans hfs)
      rw [hm2, hm1, e1, e2]
      have hrt : rt ≠ 0 := e1 ▸ hrf2
      field_simp
  exact ⟨hm, by rw [hm]; norm_num⟩

/-- Witness for C7: 1000 USD to JPY and back on the test table. -/
theorem convert_roundtrip_witness :
    ((3164000:ℚ)/21 * ((21/20) / (791/5))) = 1000 ∧
    |((3164000:ℚ)/21 * ((21/20) / (791/5))) - 1000| < 1/10000 :=
  convert_roundtrip testRates "usd" "jpy" 1000 ((3164000:ℚ)/21) ((3164:ℚ)/21)
    ((3164000:ℚ)/21 * ((21/20) / (791/5))) ((21:ℚ)/3164)
    (by have hu : upper "usd" = "USD" := by decide
        have hj : upper "jpy" = "JPY" := by decide
        unfold convert_currency
        rw [if_neg (by decide)]
        rw [hu, hj]
        rw [show getRate testRates "USD" = Except.ok (21/20) by
              simp [getRate, testRates]; norm_num]
        rw [show getRate testRates "JPY" = Except.ok (791/5) by
              simp [getRate, testRates]; norm_num]
        norm_num [checked_div, checked_mul])
    (by have hu : upper "usd" = "USD" := by decide
        have hj : upper "jpy" = "JPY" := by decide
        unfold convert_currency
        rw [if_neg (by decide)]
        rw [hu, hj]
        rw [show getRate testRates "JPY" = Except.ok (791/5) by
              simp [getRate, testRates]; norm_num]
        rw [show getRate testRates "USD" = Except.ok (21/20) by
              simp [getRate, testRates]; norm_num]
        norm_num [checked_div, checked_mul])

/-- C10: the two converter entry points are total functions into result
values: every outcome is Ok or one of the error values CurrencyNotFound and
CalculationError (the checked operations turn a zero divisor into the
CalculationError branch rather than a crash); in particular a resolved source
rate of zero with a resolvable target yields exactly the division
CalculationError.  Decimal overflow does not arise in the exact model. -/
theorem converter_total (d : DailyRate) (src dst nb : String) (amount : ℚ) :
    ((∃ p, convert_currency d src dst amount = Except.ok p) ∨
     (∃ c, convert_currency d src dst amount =
        Except.error (ApiError.CurrencyNotFound c)) ∨
     (∃ m, convert_currency d src dst amount =
        Except.error (ApiError.CalculationError m))) ∧
    ((∃ d2, rebase_rates d nb = Except.ok d2) ∨
     (∃ c, rebase_rates d nb = Except.error (ApiError.CurrencyNotFound c)) ∨
     (∃ m, rebase_rates d nb = Except.error (ApiError.CalculationError m))) ∧
    (upper src ≠ upper dst → getRate d (upper src) = Except.ok 0 →
      (∃ rt, getRate d (upper dst) = Except.ok rt) →
      convert_currency d src dst amount =
        Except.error
          (ApiError.CalculationError
            "Division by zero or overflow in conversion")) := by
  refine ⟨?_, ?_, ?_⟩
  · by_cases hne : upper src = upper dst
    · exact Or.inl ⟨(amount, 1), by unfold convert_currency; rw [if_pos hne]⟩
    · rcases getRate_cases d (upper src) with ⟨rf, hrf⟩ | hrf
      · rcases getRate_cases d (upper dst) with ⟨rt, hrt⟩ | hrt
        · by_cases h0 : rf = 0
          · refine Or.inr (Or.inr
              ⟨"Division by zero or overflow in conversion", ?_⟩)
            unfold convert_currency
            rw [if_neg hne, hrf, hrt]
            simp [checked_div, h0]
          · refine Or.inl ⟨(amount * (rt / rf), rt / rf), ?_⟩
            unfold convert_currency
            rw [if_neg hne, hrf, hrt]
            simp [checked_div, checked_mul, h0]
        · refine Or.inr (Or.inl ⟨upper dst, ?_⟩)
          unfold convert_currency
          rw [if_neg hne, hrf, hrt]
      · refine Or.inr (Or.inl ⟨upper src, ?_⟩)
        unfold convert_currency
        rw [if_neg hne, hrf]
  · by_cases hne : upper nb = d.base
    · exact Or.inl ⟨d, by unfold rebase_rates; rw [if_pos hne]⟩
    · cases hl : d.rates (upper nb) with
      | none =>
        refine Or.inr (Or.inl ⟨upper nb, ?_⟩)
        unfold rebase_rates
        rw [if_neg hne, hl]
      | some br =>
        by_cases h0 : br = 0
        · refine Or.inr (Or.inr ⟨"Division by zero in rebase", ?_⟩)
          unfold rebase_rates
          rw [if_neg hne, hl]
          simp [checked_div, h0]
        · exact Or.inl ⟨_, rebase_rates_eq_ok d nb br hne hl h0⟩
  · intro hne h0 hex
    obtain ⟨rt, hrt⟩ := hex
    unfold convert_currency
    rw [if_neg hne, h0, hrt]
    simp [checked_div]

/-- Witness for C10 at a rate set storing a zero rate. -/
theorem converter_total_witness :
    convert_currency zeroRates "usd" "eur" 7 =
      Except.error
        (ApiError.CalculationError
          "Division by zero or overflow in conversion") :=
  (converter_total zeroRates "usd" "eur" "usd" 7).2.2
    (by decide)
    (by have hu : upper "usd" = "USD" := by decide
        rw [hu]; simp [getRate, zeroRates])
    ⟨1, by have he : upper "eur" = "EUR" := by decide
           rw [he]; simp [getRate, zeroRates]⟩

/-- Construction of the rate map succeeds exactly when the rate string of
every entry parses. -/
theorem buildRateMap_ok_iff (l : List EcbRate) (m : RateMap) :
    (∃ m2, buildRateMap l m = Except.ok m2) ↔
      ∀ r ∈ l, (parseDecimal r.rate).isSome = true := by
  induction l generalizing m with
  | nil => simp [buildRateMap]
  | cons r rest ih =>
    constructor
    · intro ⟨m2, h⟩ p hmem
      unfold buildRateMap at h
      cases hp : parseDecimal r.rate with
      | none => rw [hp] at h; cases h
      | some v =>
        rw [hp] at h
        rcases List.mem_cons.mp hmem with he | hm
        · rw [he, hp]; rfl
        · exact ((ih (m.insert (upper r.currency) v)).mp ⟨m2, h⟩) p hm
    · intro hall
      have hr : (parseDecimal r.rate).isSome = true :=
        hall r (List.mem_cons_self r rest)
      cases hp : parseDecimal r.rate with
      | none => rw [hp] at hr; cases hr
      | some v =>
        obtain ⟨m2, h2⟩ :=
          (ih (m.insert (upper r.currency) v)).mpr
            (fun p hp2 => hall p (List.mem_cons_of_mem r hp2))
        exact ⟨m2, by unfold buildRateMap; rw [hp]; exact h2⟩

/-- The first unparseable entry aborts the build with the message naming its
currency. -/
theorem buildRateMap_first_error (pre : List EcbRate) (r : EcbRate)
    (post : List EcbRate) (m : RateMap)
    (hpre : ∀ p ∈ pre, (parseDecimal p.rate).isSome = true)
    (hr : parseDecimal r.rate = none) :
    buildRateMap (pre ++ r :: post) m =
      Except.error ("Failed to parse rate for " ++ r.currency) := by
  induction pre generalizing m with
  | nil =>
    rw [List.nil_append]
    unfold buildRateMap
    rw [hr]
  | cons p rest ih =>
    have hp : (parseDecimal p.rate).isSome = true :=
      hpre p (List.mem_cons_self p rest)
    cases hpp : parseDecimal p.rate with
    | none => rw [hpp] at hp; cases hp
    | some v =>
      rw [List.cons_append]
      unfold buildRateMap
      rw [hpp]
      exact ih (m.insert (upper p.currency) v)
        (fun q hq => hpre q (List.mem_cons_of_mem p hq))

/-- Lookup in the built map: the last matching insert wins, earlier map
entries otherwise. -/
theorem buildRateMap_lookup (l : List EcbRate) (m m2 : RateMap)
    (h : buildRateMap l m = Except.ok m2) (c : String) :
    m2 c = (match lastParsed l c with
      | some v => some v
      | none => m c) := by
  induction l generalizing m with
  | nil =>
    unfold buildRateMap at h
    have h2 : m = m2 := Except.ok.inj h
    subst h2
    simp [lastParsed]
  | cons r rest ih =>
    unfold buildRateMap at h
    cases hp : parseDecimal r.rate with
    | none => rw [hp] at h; cases h
    | some v =>
      rw [hp] at h
      have hrec := ih (m.insert (upper r.currency) v) h
      rw [hrec]
      have hstep : lastParsed (r :: rest) c =
          (match lastParsed rest c with
            | some w => some w
            | none =>
              if upper r.currency = c then parseDecimal r.rate else none) := rfl
      rw [hstep]
      cases hlp : lastParsed rest c with
      | some w => rfl
      | none =>
        by_cases hc : upper r.currency = c
        · have hc2 : c = upper r.currency := hc.symm
          simp only [RateMap.insert, if_pos hc, if_pos hc2, hp]
        · have hc2 : ¬(c = upper r.currency) := fun h2 => hc h2.symm
          simp only [RateMap.insert, if_neg hc, if_neg hc2]

/-- C4 (amended): from_ecb_data fails exactly when some rate string fails to
parse as a decimal number — a signed string such as a negative rate parses and
is accepted (the amendment drops the non-negativity requirement of the claim); the
failure message names the first offending currency; duplicate codes do not
fail — for every non-EUR code the stored value is the parsed rate of the LAST
entry whose uppercased code matches; EUR is always forced to 1. -/
theorem from_ecb_data_spec (t : String) (rs : List EcbRate) :
    ((∃ d, from_ecb_data t rs = Except.ok d) ↔
      ∀ r ∈ rs, (parseDecimal r.rate).isSome = true) ∧
    (∀ pre r post, rs = pre ++ r :: post →
      (∀ p ∈ pre, (parseDecimal p.rate).isSome = true) →
      parseDecimal r.rate = none →
      from_ecb_data t rs =
        Except.error ("Failed to parse rate for " ++ r.currency)) ∧
    (∀ d, from_ecb_data t rs = Except.ok d →
      d.base = "EUR" ∧ d.rates "EUR" = some 1 ∧
      ∀ c, c ≠ "EUR" → d.rates c = lastParsed rs c) := by
  refine ⟨⟨?_, ?_⟩, ?_, ?_⟩
  · intro ⟨d, hd⟩
    unfold from_ecb_data at hd
    cases hb : buildRateMap rs RateMap.empty with
    | error e => rw [hb] at hd; cases hd
    | ok m => exact (buildRateMap_ok_iff rs RateMap.empty).mp ⟨m, hb⟩
  · intro hall
    obtain ⟨m, hm⟩ := (buildRateMap_ok_iff rs RateMap.empty).mpr hall
    exact ⟨_, by unfold from_ecb_data; rw [hm]⟩
  · intro pre r post hsplit hpre hr
    unfold from_ecb_data
    rw [hsplit, buildRateMap_first_error pre r post RateMap.empty hpre hr]
  · intro d hd
    unfold from_ecb_data at hd
    cases hb : buildRateMap rs RateMap.empty with
    | error e => rw [hb] at hd; cases hd
    | ok m =>
      rw [hb] at hd
      have hd2 := Except.ok.inj hd
      subst hd2
      refine ⟨rfl, by simp [RateMap.insert], ?_⟩
      intro c hc
      have hlk := buildRateMap_lookup rs RateMap.empty m hb c
      show (m.insert "EUR" 1) c = lastParsed rs c
      simp only [RateMap.insert, if_neg hc]
      rw [hlk]
      cases lastParsed rs c <;> rfl

/-- Witness for C4: a feed whose second entry does not parse fails with the
message naming that entry. -/
theorem from_ecb_data_spec_witness :
    from_ecb_data "2024-12-04" [⟨"USD", "1.05"⟩, ⟨"GBP", "bad"⟩] =
      Except.error ("Failed to parse rate for " ++ "GBP") :=
  (from_ecb_data_spec "2024-12-04"
      [⟨"USD", "1.05"⟩, ⟨"GBP", "bad"⟩]).2.1
    [⟨"USD", "1.05"⟩] ⟨"GBP", "bad"⟩ [] rfl
    (by intro p hp
        simp only [List.mem_singleton] at hp
        subst hp
        decide)
    (by decide)

/-- Counterexample to C4 as stated: the rate string of this entry parses to a
NEGATIVE value, so it is not a valid non-negative decimal number, yet the
construction succeeds instead of failing. -/
theorem from_ecb_data_negative_counterexample :
    (from_ecb_data "2024-12-04" [⟨"USD", "-1.05"⟩]).toOption.isSome = true ∧
    parseDecimal "-1.05" = some (-(21/20)) ∧ (-(21/20) : ℚ) < 0 := by
  refine ⟨?_, ?_, by norm_num⟩
  · simp [from_ecb_data, buildRateMap, parseDecimal, parseCore,
      Except.toOption]
  · simp [parseDecimal, parseCore]
    norm_num

/-- C8: the single HTTP error-translation point maps CurrencyNotFound to 404,
NoRatesAvailable to 503 and ValidationError to 400, each carrying its own
Display message, and maps the fetch, store (redis), parse (xml) and
calculation kinds as well as InternalError to 500 with a constant generic
message that is independent of the internal detail (the detail is only
logged). -/
theorem intoResponse_spec (c m m2 : String) :
    intoResponse (ApiError.CurrencyNotFound c) =
      (404, "Currency code \x27" ++ c ++ "\x27 not found in exchange rates") ∧
    intoResponse ApiError.NoRatesAvailable =
      (503, "No exchange rates available. Please try again later.") ∧
    intoResponse (ApiError.ValidationError m) =
      (400, "Invalid parameter: " ++ m) ∧
    intoResponse (ApiError.EcbFetchError m) =
      (500, "Failed to fetch exchange rates") ∧
    intoResponse (ApiError.RedisError m) =
      (500, "Database connection error") ∧
    intoResponse (ApiError.XmlParseError m) =
      (500, "Failed to parse exchange rate data") ∧
    intoResponse (ApiError.InternalError m) =
      (500, "Internal server error") ∧
    intoResponse (ApiError.CalculationError m) =
      (500, "Internal server error") ∧
    (intoResponse (ApiError.EcbFetchError m)).2 =
      (intoResponse (ApiError.EcbFetchError m2)).2 ∧
    (intoResponse (ApiError.RedisError m)).2 =
      (intoResponse (ApiError.RedisError m2)).2 ∧
    (intoResponse (ApiError.XmlParseError m)).2 =
      (intoResponse (ApiError.XmlParseError m2)).2 ∧
    (intoResponse (ApiError.CalculationError m)).2 =
      (intoResponse (ApiError.CalculationError m2)).2 :=
  ⟨rfl, rfl, rfl, rfl, rfl, rfl, rfl, rfl, rfl, rfl, rfl, rfl⟩

/-- C9: the health handler is total — it returns a success value for every
outcome of the store ping and the last-update lookup, with the redis field
healthy exactly when the ping succeeded and a failed date lookup reported as
an absent date, never as an error response. -/
theorem health_handler_total (ping : Except ApiError Unit)
    (lu : Except ApiError (Option String)) :
    ∃ resp, health_handler ping lu = Except.ok resp ∧
      resp.status = "ok" ∧
      (resp.redis = "healthy" ↔ ping = Except.ok ()) ∧
      (resp.redis = "unhealthy" ↔ ∃ e, ping = Except.error e) ∧
      (∀ e, lu = Except.error e → resp.last_update = none) := by
  refine ⟨_, rfl, rfl, ?_, ?_, ?_⟩
  · cases ping with
    | ok u => cases u; simp [health_handler]
    | error e => simp [health_handler]
  · cases ping with
    | ok u => cases u; simp [health_handler]
    | error e => simp [health_handler]
  · intro e he
    subst he
    rfl

/-- Witness for C9: both store interactions failing still yields a success
response flagged unhealthy with no date. -/
theorem health_handler_total_witness :
    health_handler (Except.error (ApiError.RedisError "connection refused"))
        (Except.error (ApiError.RedisError "connection refused")) =
      Except.ok { status := "ok", redis := "unhealthy", last_update := none } := by
  obtain ⟨resp, h1, h2, -, h4, h5⟩ :=
    health_handler_total
      (Except.error (ApiError.RedisError "connection refused"))
      (Except.error (ApiError.RedisError "connection refused"))
  rw [h1]
  have hr : resp.redis = "unhealthy" :=
    h4.mpr ⟨ApiError.RedisError "connection refused", rfl⟩
  have hl : resp.last_update = none :=
    h5 (ApiError.RedisError "connection refused") rfl
  cases resp
  simp only at h2 hr hl
  rw [h2, hr, hl]
